import Mathlib

/-!
Shallow embedding of the ledger-aggregation core of the expense-tracker
server (NestJS/TypeORM).  The persistent store is modelled as lists of
records; repository `find`/`findOne` calls become list filtering and
`List.find?`; SQL aggregate queries (`SUM`, `COUNT`, `GROUP BY`) become
sums/lengths over the corresponding filtered lists.  Monetary amounts use
`ℤ` (the SQL side stores `DECIMAL(10,2)` and aggregates exactly); calendar
dates and timestamps are day/instant indices in `ℤ`; a possibly-absent,
possibly-unparseable date (`openingBalanceDate`, which the service feeds
through `new Date(...)` and an `isNaN` check) is an
`Option (Option ℤ)`: `none` = column absent, `some none` = present but not
a valid date (`NaN` time value), `some (some d)` = valid date `d`.
Fallible service methods return `Except Err _`; mutating methods return
the updated store, so a method that fails leaves the store untouched by
construction.
-/

namespace ExpenseTracker

/-- The `transaction_type` enum of the `transactions` table. -/
inductive TransactionType where
  | debit
  | credit
deriving DecidableEq, Repr

/-- The `payment_method` enum (shared by `transactions` and the legacy
`expenses` table). -/
inductive PaymentMethod where
  | cash
  | card
  | upi
  | other
deriving DecidableEq, Repr

/-- The `type` enum of the `accounts` table. -/
inductive AccountType where
  | cash
  | bank
  | card
  | other
deriving DecidableEq, Repr

/-- Row of the `transactions` table (fields the embedded services read;
`description`, `notes` and `updated_at` are carried by the real entity but
never inspected by the operations under verification). -/
structure Transaction where
  id : String
  amount : ℤ
  date : ℤ
  transactionType : TransactionType
  accountId : String
  categoryId : Option String
  userId : ℕ
  paymentMethod : PaymentMethod
  isDeleted : Bool
  createdAt : ℤ
deriving DecidableEq, Repr

/-- Row of the `accounts` table. -/
structure Account where
  id : String
  userId : ℕ
  name : String
  type : AccountType
  openingBalance : ℤ
  openingBalanceDate : Option (Option ℤ)
  isDeleted : Bool
  createdAt : ℤ
deriving DecidableEq, Repr

/-- Row of the legacy `expenses` table.  Faithful to
`expense.entity.ts`: there is no soft-delete column on this entity. -/
structure Expense where
  id : String
  amount : ℤ
  date : ℤ
  categoryId : Option String
  userId : ℕ
  paymentMethod : PaymentMethod
  createdAt : ℤ
deriving DecidableEq, Repr

/-- The relational store the services run against. -/
structure Store where
  accounts : List Account
  transactions : List Transaction
  expenses : List Expense
deriving DecidableEq, Repr

/-- Error taxonomy of the embedded service methods
(`NotFoundException`, `ForbiddenException`, `BadRequestException`). -/
inductive Err where
  | notFound (msg : String)
  | forbidden (msg : String)
  | badRequest (msg : String)
deriving DecidableEq, Repr

instance {ε α : Type} [DecidableEq ε] [DecidableEq α] : DecidableEq (Except ε α) :=
  fun x y =>
    match x, y with
    | .ok a, .ok b =>
      if h : a = b then isTrue (by rw [h]) else isFalse fun hc => h (Except.ok.inj hc)
    | .error a, .error b =>
      if h : a = b then isTrue (by rw [h]) else isFalse fun hc => h (Except.error.inj hc)
    | .ok _, .error _ => isFalse fun hc => Except.noConfusion hc
    | .error _, .ok _ => isFalse fun hc => Except.noConfusion hc

/-- Result shape of `TransactionsService.getBalance`.  The
`openingBalanceDate` field mirrors the JS output: `none` = `undefined`,
`some (some d)` = the ISO date `d`, `some none` = a present but
unparseable date string passed through verbatim (only the degraded path
of `getAllAccountBalances` can produce this). -/
structure BalanceResult where
  accountId : String
  accountName : String
  openingBalance : ℤ
  openingBalanceDate : Option (Option ℤ)
  totalCredit : ℤ
  totalDebit : ℤ
  balance : ℤ
deriving DecidableEq, Repr

/-- Embedding of `accountsRepository.findOne({ where: { id, userId, isDeleted: false } })`. -/
def lookupAccount (s : Store) (accountId : String) (userId : ℕ) : Option Account :=
  s.accounts.find? fun a =>
    decide (a.id = accountId ∧ a.userId = userId ∧ a.isDeleted = false)

/-- The date cursor `getBalance` derives from `account.openingBalanceDate`:
the filter is applied iff the column is present and passes the
`!isNaN(openingBalanceDate.getTime())` check. -/
def obDateFilter (a : Account) : Option ℤ :=
  match a.openingBalanceDate with
  | some (some d) => some d
  | _ => none

/-- The `transaction.date >= openingBalanceDate` condition, a no-op when
no date cursor is present. -/
def dateGate (dcur : Option ℤ) (d : ℤ) : Bool :=
  match dcur with
  | some cur => decide (cur ≤ d)
  | none => true

/-- The transaction row set underlying both aggregate queries of
`getBalance`: `accountId` match, `isDeleted = false`, and — when the date
cursor is present — `transaction.date >= openingBalanceDate`. -/
def balanceRows (s : Store) (accountId : String) (dcur : Option ℤ) : List Transaction :=
  s.transactions.filter fun t =>
    decide (t.accountId = accountId ∧ t.isDeleted = false ∧
      dateGate dcur t.date = true)

/-- Embedding of `COALESCE(SUM(transaction.amount), 0)` over a row list. -/
def sumAmount (l : List Transaction) : ℤ :=
  (l.map Transaction.amount).sum

/-- Embedding of `TransactionsService.getBalance` (src/unnamed/part_006, lines
204-264): look up the owned, non-deleted account, derive the opening-date
cursor, run the credit and debit `SUM` queries over the filtered rows and
combine with the opening balance. -/
def getBalance (s : Store) (accountId : String) (userId : ℕ) :
    Except Err BalanceResult :=
  match lookupAccount s accountId userId with
  | none => .error (.notFound "Account not found")
  | some account =>
    let dcur := obDateFilter account
    let rows := balanceRows s accountId dcur
    let totalCredit := sumAmount (rows.filter fun t =>
      decide (t.transactionType = .credit))
    let totalDebit := sumAmount (rows.filter fun t =>
      decide (t.transactionType = .debit))
    .ok
      { accountId := account.id
        accountName := account.name
        openingBalance := account.openingBalance
        openingBalanceDate := dcur.map some
        totalCredit := totalCredit
        totalDebit := totalDebit
        balance := account.openingBalance + totalCredit - totalDebit }

/-- The non-deleted accounts of a user, in repository/storage order:
`accountsRepository.find({ where: { userId, isDeleted: false } })` — note
that this query (used by `getAllAccountBalances`) specifies no `order`
clause, so the rows come back in whatever order the store holds them. -/
def activeAccounts (s : Store) (userId : ℕ) : List Account :=
  s.accounts.filter fun a => decide (a.userId = userId ∧ a.isDeleted = false)

/-- The degraded per-account fallback built by `getAllAccountBalances`
for a rejected balance computation: opening balance only, zero sums.
Its `openingBalanceDate` is passed through without the validity check of
`getBalance` (`some none` models an unparseable value emitted verbatim). -/
def defaultBalanceFor (a : Account) : BalanceResult :=
  { accountId := a.id
    accountName := a.name
    openingBalance := a.openingBalance
    openingBalanceDate := a.openingBalanceDate
    totalCredit := 0
    totalDebit := 0
    balance := a.openingBalance }

/-- Fan-out of `getAllAccountBalances` parameterised by the per-account balance
computation (the `Promise.allSettled` fan-out: a fulfilled promise
contributes its value, a rejected one the degraded fallback; the final
`.filter(Boolean)` keeps every entry since both branches return objects). -/
def getAllAccountBalancesWith (compute : Account → Except Err BalanceResult)
    (s : Store) (userId : ℕ) : List BalanceResult :=
  (activeAccounts s userId).map fun account =>
    match compute account with
    | .ok v => v
    | .error _ => defaultBalanceFor account

/-- Embedding of `TransactionsService.getAllAccountBalances` (src/unnamed/part_006,
lines 266-307): fan out `getBalance` over the user's non-deleted
accounts. -/
def getAllAccountBalances (s : Store) (userId : ℕ) : List BalanceResult :=
  getAllAccountBalancesWith (fun account => getBalance s account.id userId) s userId

/-- The date predicate the `queryBuilder` helper of
`TransactionsService.getStats` applies (both bounds → inclusive
`BETWEEN`; only start → `date >= start`; only end → `date <= end`;
neither → no filter). -/
def statsDatePolicy (startDate endDate : Option ℤ) (d : ℤ) : Bool :=
  match startDate, endDate with
  | some sd, some ed => decide (sd ≤ d ∧ d ≤ ed)
  | some sd, none => decide (sd ≤ d)
  | none, some ed => decide (d ≤ ed)
  | none, none => true

/-- The date predicate the standalone credit/debit `SUM` queries of
`TransactionsService.getStats` apply: the inclusive `BETWEEN` when both
bounds are given and no restriction otherwise (these two queries do not
go through the `queryBuilder` helper). -/
def statsTotalsDateFilter (startDate endDate : Option ℤ) (d : ℤ) : Bool :=
  match startDate, endDate with
  | some sd, some ed => decide (sd ≤ d ∧ d ≤ ed)
  | _, _ => true

/-- Row set of the credit-total (resp. debit-total) query of `getStats`:
`userId` match, the requested transaction type, `isDeleted = false`, and
the both-bounds-only date restriction. -/
def statsTotalRows (s : Store) (userId : ℕ) (ty : TransactionType)
    (startDate endDate : Option ℤ) : List Transaction :=
  s.transactions.filter fun t =>
    decide (t.userId = userId ∧ t.transactionType = ty ∧ t.isDeleted = false ∧
      statsTotalsDateFilter startDate endDate t.date = true)

/-- Row set the two `GROUP BY` queries of `getStats` aggregate over:
`userId` match, `isDeleted = false`, and the full date-filter policy
(via the `queryBuilder` helper). -/
def statsGroupRows (s : Store) (userId : ℕ)
    (startDate endDate : Option ℤ) : List Transaction :=
  s.transactions.filter fun t =>
    decide (t.userId = userId ∧ t.isDeleted = false ∧
      statsDatePolicy startDate endDate t.date = true)

/-- Distinct group keys of a row list, in order of first occurrence
(`GROUP BY` without `ORDER BY`; the store's own enumeration order is
unspecified, first-occurrence order is this embedding's rendering). -/
def groupKeys {K : Type} [DecidableEq K] (key : Transaction → K)
    (l : List Transaction) : List K :=
  l.foldl (fun ks t => if key t ∈ ks then ks else ks ++ [key t]) []

/-- One output row of the `byCategory` grouping of
`TransactionsService.getStats`: grouped by (joined) category identity and
transaction type, reporting `SUM(amount)` and `COUNT(id)`.  The joined
display columns (name/icon/color) live on the category row and are not
modelled. -/
structure CategoryGroup where
  categoryId : Option String
  transactionType : TransactionType
  total : ℤ
  count : ℕ
deriving DecidableEq, Repr

/-- One output row of the `byPaymentMethod` grouping of
`TransactionsService.getStats`. -/
structure PaymentMethodGroup where
  paymentMethod : PaymentMethod
  transactionType : TransactionType
  total : ℤ
  count : ℕ
deriving DecidableEq, Repr

/-- The `byCategory` grouping over a row list. -/
def groupByCategory (l : List Transaction) : List CategoryGroup :=
  (groupKeys (fun t => (t.categoryId, t.transactionType)) l).map fun k =>
    let rows := l.filter fun t => decide ((t.categoryId, t.transactionType) = k)
    { categoryId := k.1
      transactionType := k.2
      total := sumAmount rows
      count := rows.length }

/-- The `byPaymentMethod` grouping over a row list. -/
def groupByPaymentMethod (l : List Transaction) : List PaymentMethodGroup :=
  (groupKeys (fun t => (t.paymentMethod, t.transactionType)) l).map fun k =>
    let rows := l.filter fun t => decide ((t.paymentMethod, t.transactionType) = k)
    { paymentMethod := k.1
      transactionType := k.2
      total := sumAmount rows
      count := rows.length }

/-- Result shape of `TransactionsService.getStats`. -/
structure StatsResult where
  totalCredit : ℤ
  totalDebit : ℤ
  byCategory : List CategoryGroup
  byPaymentMethod : List PaymentMethodGroup
deriving DecidableEq, Repr

/-- Embedding of `TransactionsService.getStats` (src/unnamed/part_006, lines 309-409):
the credit and debit totals are computed by standalone queries that apply
the `BETWEEN` filter only when both bounds are present, while the two
grouped sub-queries are filtered through the `queryBuilder` helper
implementing the full date policy. -/
def getStats (s : Store) (userId : ℕ)
    (startDate endDate : Option ℤ) : StatsResult :=
  { totalCredit := sumAmount (statsTotalRows s userId .credit startDate endDate)
    totalDebit := sumAmount (statsTotalRows s userId .debit startDate endDate)
    byCategory := groupByCategory (statsGroupRows s userId startDate endDate)
    byPaymentMethod := groupByPaymentMethod (statsGroupRows s userId startDate endDate) }

/-- Embedding of `transactionsRepository.findOne({ where: { id, userId, isDeleted: false } })`. -/
def lookupTransaction (s : Store) (id : String) (userId : ℕ) : Option Transaction :=
  s.transactions.find? fun t =>
    decide (t.id = id ∧ t.userId = userId ∧ t.isDeleted = false)

/-- Embedding of `TransactionsService.findOne` (src/unnamed/part_006, lines 172-183). -/
def transactionsFindOne (s : Store) (id : String) (userId : ℕ) :
    Except Err Transaction :=
  match lookupTransaction s id userId with
  | none => .error (.notFound "Transaction not found")
  | some t => .ok t

/-- The `UpdateTransactionDto` record: every field optional (`PartialType` of the
create DTO). -/
structure UpdateTransactionDto where
  amount : Option ℤ := none
  date : Option ℤ := none
  transactionType : Option TransactionType := none
  accountId : Option String := none
  categoryId : Option String := none
  paymentMethod : Option PaymentMethod := none
deriving DecidableEq, Repr

/-- The `Object.assign(transaction, dto)` step of
`TransactionsService.update` (the `date` field is applied first and
removed from the DTO, with the same net effect). -/
def applyUpdate (t : Transaction) (dto : UpdateTransactionDto) : Transaction :=
  { t with
    amount := dto.amount.getD t.amount
    date := dto.date.getD t.date
    transactionType := dto.transactionType.getD t.transactionType
    accountId := dto.accountId.getD t.accountId
    categoryId := match dto.categoryId with
      | some c => some c
      | none => t.categoryId
    paymentMethod := dto.paymentMethod.getD t.paymentMethod }

/-- Embedding of `repository.save(row)` for a transaction row: update-by-primary-key. -/
def saveTransaction (s : Store) (row : Transaction) : Store :=
  { s with transactions := s.transactions.map fun x =>
      if x.id = row.id then row else x }

/-- Embedding of `TransactionsService.update` (src/unnamed/part_006, lines 185-195):
route through `findOne` (which excludes soft-deleted rows), merge the DTO,
save. -/
def transactionsUpdate (s : Store) (id : String) (userId : ℕ)
    (dto : UpdateTransactionDto) : Except Err (Transaction × Store) :=
  match lookupTransaction s id userId with
  | none => .error (.notFound "Transaction not found")
  | some t =>
    let t' := applyUpdate t dto
    .ok (t', saveTransaction s t')

/-- Embedding of `TransactionsService.remove` (src/unnamed/part_006, lines 197-202):
route through `findOne`, set the soft-delete flag, save. -/
def transactionsRemove (s : Store) (id : String) (userId : ℕ) :
    Except Err (String × Store) :=
  match lookupTransaction s id userId with
  | none => .error (.notFound "Transaction not found")
  | some t =>
    let t' := { t with isDeleted := true }
    .ok ("Transaction deleted successfully", saveTransaction s t')

/-- Embedding of `name.toLowerCase()`: character-wise lowercasing. -/
def lowerStr (s : String) : String := String.mk (s.data.map Char.toLower)

/-- Insert an account into a list sorted by `createdAt` (ascending). -/
def insertByCreatedAt (a : Account) : List Account → List Account
  | [] => [a]
  | b :: bs =>
    if a.createdAt ≤ b.createdAt then a :: b :: bs
    else b :: insertByCreatedAt a bs

/-- Embedding of `ORDER BY created_at ASC` over an account row list (insertion sort;
ties are broken arbitrarily by SQL, this rendering keeps them stable). -/
def sortByCreatedAt (l : List Account) : List Account :=
  l.foldr insertByCreatedAt []

/-- Embedding of `AccountsService.findAll`: the user's non-deleted accounts ordered by
creation time ascending. -/
def accountsFindAll (s : Store) (userId : ℕ) : List Account :=
  sortByCreatedAt (activeAccounts s userId)

/-- Count (`COUNT(*)`) of non-deleted transactions referencing an account
(`transactionsRepository.count({ where: { accountId, isDeleted: false } })`). -/
def accountTransactionCount (s : Store) (accountId : String) : ℕ :=
  (s.transactions.filter fun t =>
    decide (t.accountId = accountId ∧ t.isDeleted = false)).length

/-- The history-gate denial message of `AccountsService.remove`, carrying
the exact transaction count. -/
def removeDeniedMsg (n : ℕ) : String :=
  "Cannot delete account with " ++ toString n ++
    " transaction(s). Please delete or move the transactions first."

/-- Tail of `AccountsService.remove` after the default-Cash guard: the
transaction-history gate followed by the soft delete. -/
def accountsRemoveCore (s : Store) (account : Account) (id : String) :
    Except Err (String × Store) :=
  let n := accountTransactionCount s id
  if n > 0 then .error (.badRequest (removeDeniedMsg n))
  else
    .ok ("Account deleted successfully",
      { s with accounts := s.accounts.map fun a =>
          if a.id = account.id then { a with isDeleted := true } else a })

/-- Embedding of `AccountsService.remove` (accounts.service.ts, lines 66-96): look up
the owned, non-deleted account; if its name lower-cases to "cash" and its
type is `cash`, deny when it is the head of the user's non-deleted
accounts ordered by creation time; then deny when any non-deleted
transaction references it; otherwise set the soft-delete flag. -/
def accountsRemove (s : Store) (id : String) (userId : ℕ) :
    Except Err (String × Store) :=
  match lookupAccount s id userId with
  | none => .error (.notFound "Account not found")
  | some account =>
    if lowerStr account.name = "cash" ∧ account.type = .cash then
      match accountsFindAll s userId with
      | a0 :: _ =>
        if a0.id = account.id then
          .error (.forbidden "Cannot delete the default Cash account")
        else accountsRemoveCore s account id
      | [] => accountsRemoveCore s account id
    else accountsRemoveCore s account id

/-- Embedding of `expensesRepository.findOne({ where: { id, userId } })` — the legacy
entity has no soft-delete column, so the lookup has no such filter. -/
def lookupExpense (s : Store) (id : String) (userId : ℕ) : Option Expense :=
  s.expenses.find? fun e => decide (e.id = id ∧ e.userId = userId)

/-- Embedding of `ExpensesService.remove` (expenses.service.ts, lines 94-98): look up
the owned expense and physically delete the row
(`expensesRepository.remove(expense)`). -/
def expensesRemove (s : Store) (id : String) (userId : ℕ) :
    Except Err (String × Store) :=
  match lookupExpense s id userId with
  | none => .error (.notFound "Expense not found")
  | some e =>
    .ok ("Expense deleted successfully",
      { s with expenses := s.expenses.filter fun x => decide (¬(x.id = e.id)) })

/-- Row set every sub-query of `ExpensesService.getStats` aggregates
over: `userId` match plus the full date policy (all three expense
sub-queries go through the same `queryBuilder` helper); there is no
soft-delete condition because the entity has no such column. -/
def expenseStatsRows (s : Store) (userId : ℕ)
    (startDate endDate : Option ℤ) : List Expense :=
  s.expenses.filter fun e =>
    decide (e.userId = userId ∧ statsDatePolicy startDate endDate e.date = true)

/-- Embedding of `SUM(expense.amount)` over a row list. -/
def sumExpenseAmount (l : List Expense) : ℤ :=
  (l.map Expense.amount).sum

/-- One output row of the `byCategory` grouping of
`ExpensesService.getStats` (no transaction-type split on the legacy
entity). -/
structure ExpenseCategoryGroup where
  categoryId : Option String
  total : ℤ
  count : ℕ
deriving DecidableEq, Repr

/-- One output row of the `byPaymentMethod` grouping of
`ExpensesService.getStats`. -/
structure ExpensePaymentMethodGroup where
  paymentMethod : PaymentMethod
  total : ℤ
  count : ℕ
deriving DecidableEq, Repr

/-- Distinct expense group keys in first-occurrence order. -/
def expenseGroupKeys {K : Type} [DecidableEq K] (key : Expense → K)
    (l : List Expense) : List K :=
  l.foldl (fun ks e => if key e ∈ ks then ks else ks ++ [key e]) []

/-- The `byCategory` grouping of `ExpensesService.getStats`. -/
def expenseGroupByCategory (l : List Expense) : List ExpenseCategoryGroup :=
  (expenseGroupKeys Expense.categoryId l).map fun k =>
    let rows := l.filter fun e => decide (e.categoryId = k)
    { categoryId := k, total := sumExpenseAmount rows, count := rows.length }

/-- The `byPaymentMethod` grouping of `ExpensesService.getStats`. -/
def expenseGroupByPaymentMethod (l : List Expense) : List ExpensePaymentMethodGroup :=
  (expenseGroupKeys Expense.paymentMethod l).map fun k =>
    let rows := l.filter fun e => decide (e.paymentMethod = k)
    { paymentMethod := k, total := sumExpenseAmount rows, count := rows.length }

/-- Result shape of `ExpensesService.getStats`. -/
structure ExpenseStatsResult where
  total : ℤ
  byCategory : List ExpenseCategoryGroup
  byPaymentMethod : List ExpensePaymentMethodGroup
deriving DecidableEq, Repr

/-- Embedding of `ExpensesService.getStats` (expenses.service.ts, lines 100-167): all
three sub-queries share the `queryBuilder` base filter (`userId` plus the
full date policy). -/
def expensesGetStats (s : Store) (userId : ℕ)
    (startDate endDate : Option ℤ) : ExpenseStatsResult :=
  let rows := expenseStatsRows s userId startDate endDate
  { total := sumExpenseAmount rows
    byCategory := expenseGroupByCategory rows
    byPaymentMethod := expenseGroupByPaymentMethod rows }

/-- The claim notion "chronologically first non-deleted account": the head
of `AccountsService.findAll`'s ordering, matched by id. -/
def isChronoFirst (s : Store) (userId : ℕ) (acc : Account) : Bool :=
  match accountsFindAll s userId with
  | a0 :: _ => decide (a0.id = acc.id)
  | [] => false

/-! ## Claim-level specification predicates -/

/-- Spec-side credit/debit sum of the balance identity: the sum of the
amounts of the non-deleted transactions of the account with the given
type, restricted to `date >= d` exactly when the opening-date cursor `d`
is present. -/
def specTypedSum (s : Store) (accountId : String) (dcur : Option ℤ)
    (ty : TransactionType) : ℤ :=
  sumAmount (s.transactions.filter fun t =>
    decide (t.accountId = accountId ∧ t.isDeleted = false ∧
      t.transactionType = ty ∧ dateGate dcur t.date = true))

/-- Spec-side row set of the claim "the same date filter is applied to
every sub-query of `getStats`": `userId` match, non-deleted, the given
type, and the full date policy. -/
def uniformStatsRows (s : Store) (userId : ℕ) (startDate endDate : Option ℤ)
    (ty : TransactionType) : List Transaction :=
  s.transactions.filter fun t =>
    decide (t.userId = userId ∧ t.isDeleted = false ∧ t.transactionType = ty ∧
      statsDatePolicy startDate endDate t.date = true)

/-- Creation timestamp of the account a balance entry refers to
(0 when the id resolves to no stored account). -/
def creationTimeOf (s : Store) (accountId : String) : ℤ :=
  ((s.accounts.find? fun a => decide (a.id = accountId)).map Account.createdAt).getD 0

/-- Spec-side rendering of "the all-balances list is ordered by account
creation time ascending". -/
def allBalancesCreationOrdered (s : Store) (userId : ℕ) : Prop :=
  List.Sorted (· ≤ ·)
    ((getAllAccountBalances s userId).map fun b => creationTimeOf s b.accountId)

/-- Spec-side rendering of the claim that the legacy expense module soft
deletes: a record removal never shrinks the stored expense table
("deleted" sets a flag, rows are never physically removed). -/
def legacySoftDeleteClaim : Prop :=
  ∀ (s : Store) (id : String) (userId : ℕ) (msg : String) (s' : Store),
    expensesRemove s id userId = .ok (msg, s') →
    s'.expenses.length = s.expenses.length

/-- The soft-delete frame property of `TransactionsService.remove`: the
store changes only by flipping the target's flag, and every row set and
sum feeding `getBalance` and `getStats` loses exactly the target
transaction's contribution. -/
def removeFrameSpec (s : Store) (tid : String) (t : Transaction) : Prop :=
  ∃ s',
    transactionsRemove s tid t.userId = .ok ("Transaction deleted successfully", s') ∧
    s'.accounts = s.accounts ∧
    s'.expenses = s.expenses ∧
    s'.transactions = s.transactions.map
      (fun x => if x.id = tid then { x with isDeleted := true } else x) ∧
    (∀ aid dcur, balanceRows s' aid dcur =
      (balanceRows s aid dcur).filter fun x => decide (¬x.id = tid)) ∧
    (∀ aid dcur ty,
      sumAmount ((balanceRows s' aid dcur).filter fun x => decide (x.transactionType = ty)) =
      sumAmount ((balanceRows s aid dcur).filter fun x => decide (x.transactionType = ty)) -
        (if t.accountId = aid ∧ t.isDeleted = false ∧ t.transactionType = ty ∧
            dateGate dcur t.date = true
         then t.amount else 0)) ∧
    (∀ uid2 sd ed ty,
      sumAmount (statsTotalRows s' uid2 ty sd ed) =
      sumAmount (statsTotalRows s uid2 ty sd ed) -
        (if t.userId = uid2 ∧ t.transactionType = ty ∧ t.isDeleted = false ∧
            statsTotalsDateFilter sd ed t.date = true
         then t.amount else 0)) ∧
    (∀ uid2 sd ed, statsGroupRows s' uid2 sd ed =
      (statsGroupRows s uid2 sd ed).filter fun x => decide (¬x.id = tid))

/-- The balance identity with opening-date filter, stated for an account
the lookup resolves: every output field of `getBalance` in terms of the
spec-side filtered sums of `specTypedSum`. -/
def balanceIdentitySpec (s : Store) (aid : String) (uid : ℕ) (acc : Account) : Prop :=
  getBalance s aid uid = .ok
    { accountId := acc.id
      accountName := acc.name
      openingBalance := acc.openingBalance
      openingBalanceDate := (obDateFilter acc).map some
      totalCredit := specTypedSum s aid (obDateFilter acc) .credit
      totalDebit := specTypedSum s aid (obDateFilter acc) .debit
      balance := acc.openingBalance + specTypedSum s aid (obDateFilter acc) .credit
        - specTypedSum s aid (obDateFilter acc) .debit }

/-- Partial-failure isolation of the all-balances fan-out, for a failing
account sitting at index `i` of the user's account list: the result still
has one entry per account, the failing entry is the degraded fallback,
and every successfully computed entry is returned untouched. -/
def failureIsolationSpec (s : Store) (uid : ℕ)
    (compute : Account → Except Err BalanceResult) (i : ℕ) (a : Account) : Prop :=
  (getAllAccountBalancesWith compute s uid).length = (activeAccounts s uid).length ∧
  (getAllAccountBalancesWith compute s uid)[i]? = some (defaultBalanceFor a) ∧
  ∀ (j : ℕ) (b : Account) (v : BalanceResult),
    (activeAccounts s uid)[j]? = some b → compute b = .ok v →
    (getAllAccountBalancesWith compute s uid)[j]? = some v

/-- The two deletion gates of `AccountsService.remove` and the
soft-delete that follows when both pass, for an account the lookup
resolves. -/
def accountRemoveGuardSpec (s : Store) (id : String) (uid : ℕ) (acc : Account) : Prop :=
  (lowerStr acc.name = "cash" ∧ acc.type = .cash ∧ isChronoFirst s uid acc = true →
    accountsRemove s id uid = .error (.forbidden "Cannot delete the default Cash account")) ∧
  (¬(lowerStr acc.name = "cash" ∧ acc.type = .cash ∧ isChronoFirst s uid acc = true) →
    0 < accountTransactionCount s id →
    accountsRemove s id uid = .error (.badRequest (removeDeniedMsg (accountTransactionCount s id)))) ∧
  (¬(lowerStr acc.name = "cash" ∧ acc.type = .cash ∧ isChronoFirst s uid acc = true) →
    accountTransactionCount s id = 0 →
    accountsRemove s id uid = .ok ("Account deleted successfully",
      { s with accounts := s.accounts.map fun a =>
          if a.id = acc.id then { a with isDeleted := true } else a }))

/-- Amended behaviour of the legacy expense module: every stats sub-query
aggregates over the `userId`-and-date-filtered rows (there is no
soft-delete condition), and removal physically deletes the row, so all
subsequent stats row sets and totals lose exactly that expense. -/
def legacyAmendedSpec (s : Store) (id : String) (uid : ℕ) (e : Expense) : Prop :=
  (∀ uid2 sd ed,
    (expensesGetStats s uid2 sd ed).total = sumExpenseAmount (s.expenses.filter fun x =>
      decide (x.userId = uid2 ∧ statsDatePolicy sd ed x.date = true)) ∧
    (expensesGetStats s uid2 sd ed).byCategory =
      expenseGroupByCategory (expenseStatsRows s uid2 sd ed) ∧
    (expensesGetStats s uid2 sd ed).byPaymentMethod =
      expenseGroupByPaymentMethod (expenseStatsRows s uid2 sd ed)) ∧
  ∃ s', expensesRemove s id uid = .ok ("Expense deleted successfully", s') ∧
    s'.accounts = s.accounts ∧
    s'.transactions = s.transactions ∧
    s'.expenses = (s.expenses.filter fun x => decide (¬x.id = e.id)) ∧
    (∀ uid2 sd ed, expenseStatsRows s' uid2 sd ed =
      (expenseStatsRows s uid2 sd ed).filter fun x => decide (¬x.id = e.id)) ∧
    (∀ uid2 sd ed, (expensesGetStats s' uid2 sd ed).total =
      (expensesGetStats s uid2 sd ed).total -
        (if e.userId = uid2 ∧ statsDatePolicy sd ed e.date = true then e.amount else 0))

/-! ## Concrete stores for witnesses and counterexamples -/

/-- Account of the spec's concrete scenario: opening balance 1000
effective from day 1. -/
def w1Account : Account :=
  { id := "a1", userId := 1, name := "Main", type := .bank,
    openingBalance := 1000, openingBalanceDate := some (some 1),
    isDeleted := false, createdAt := 1 }

/-- Store of the spec's concrete scenario, plus one non-deleted credit
dated before the opening date (exercising the strict exclusion). -/
def w1Store : Store :=
  { accounts := [w1Account]
    transactions :=
      [ { id := "t1", amount := 500, date := 5, transactionType := .credit,
          accountId := "a1", categoryId := none, userId := 1,
          paymentMethod := .cash, isDeleted := false, createdAt := 5 },
        { id := "t2", amount := 200, date := 10, transactionType := .debit,
          accountId := "a1", categoryId := none, userId := 1,
          paymentMethod := .card, isDeleted := false, createdAt := 6 },
        { id := "t3", amount := 50, date := 12, transactionType := .debit,
          accountId := "a1", categoryId := none, userId := 1,
          paymentMethod := .cash, isDeleted := true, createdAt := 7 },
        { id := "t0", amount := 77, date := 0, transactionType := .credit,
          accountId := "a1", categoryId := none, userId := 1,
          paymentMethod := .cash, isDeleted := false, createdAt := 1 } ]
    expenses := [] }

/-- One credit dated day 5 for user 1: with `startDate = 10` and no end
date, the uniform policy excludes it but the standalone credit-total
query of `getStats` applies no date filter at all. -/
def c2Store : Store :=
  { accounts := []
    transactions :=
      [ { id := "t1", amount := 100, date := 5, transactionType := .credit,
          accountId := "a1", categoryId := none, userId := 1,
          paymentMethod := .cash, isDeleted := false, createdAt := 1 } ]
    expenses := [] }

/-- First account of the partial-failure scenario (its balance
computation will be made to fail). -/
def w3Bank : Account :=
  { id := "a1", userId := 1, name := "Bank", type := .bank,
    openingBalance := 250, openingBalanceDate := none,
    isDeleted := false, createdAt := 1 }

/-- Second account of the partial-failure scenario. -/
def w3Wallet : Account :=
  { id := "a2", userId := 1, name := "Wallet", type := .cash,
    openingBalance := 40, openingBalanceDate := none,
    isDeleted := false, createdAt := 2 }

/-- Two accounts of user 1 for the partial-failure scenario. -/
def w3Store : Store :=
  { accounts := [w3Bank, w3Wallet]
    transactions :=
      [ { id := "t1", amount := 30, date := 3, transactionType := .credit,
          accountId := "a2", categoryId := none, userId := 1,
          paymentMethod := .cash, isDeleted := false, createdAt := 3 } ]
    expenses := [] }

/-- A balance oracle that rejects for account `a1` and computes the real
balance otherwise (the shape of a runtime fan-out failure under
`Promise.allSettled`). -/
def w3Compute : Account → Except Err BalanceResult := fun account =>
  if account.id = "a1" then .error (.badRequest "connection reset")
  else getBalance w3Store account.id 1

/-- The protected default Cash account (chronologically first) of the
deletion-guard scenario. -/
def w4Cash : Account :=
  { id := "c1", userId := 1, name := "Cash", type := .cash,
    openingBalance := 0, openingBalanceDate := none,
    isDeleted := false, createdAt := 1 }

/-- User 1 owns a protected default Cash account (chronologically first)
and a later bank account with transaction history. -/
def w4Store : Store :=
  { accounts :=
      [ w4Cash,
        { id := "b1", userId := 1, name := "Bank", type := .bank,
          openingBalance := 10, openingBalanceDate := none,
          isDeleted := false, createdAt := 2 } ]
    transactions :=
      [ { id := "t1", amount := 5, date := 3, transactionType := .debit,
          accountId := "b1", categoryId := none, userId := 1,
          paymentMethod := .card, isDeleted := false, createdAt := 3 } ]
    expenses := [] }

/-- Store used to exercise the soft-delete frame property: two accounts,
three transactions of user 1. -/
def w6Store : Store :=
  { accounts :=
      [ { id := "a1", userId := 1, name := "Main", type := .bank,
          openingBalance := 100, openingBalanceDate := none,
          isDeleted := false, createdAt := 1 } ]
    transactions :=
      [ { id := "t1", amount := 20, date := 2, transactionType := .debit,
          accountId := "a1", categoryId := some "groceries", userId := 1,
          paymentMethod := .cash, isDeleted := false, createdAt := 2 },
        { id := "t2", amount := 60, date := 4, transactionType := .credit,
          accountId := "a1", categoryId := none, userId := 1,
          paymentMethod := .upi, isDeleted := false, createdAt := 4 } ]
    expenses := [] }

/-- The targeted transaction of the frame-property witness. -/
def w6Target : Transaction :=
  { id := "t1", amount := 20, date := 2, transactionType := .debit,
    accountId := "a1", categoryId := some "groceries", userId := 1,
    paymentMethod := .cash, isDeleted := false, createdAt := 2 }

/-- Accounts of user 1 stored in an order that is not ascending in
creation time (`a2` created after `a1` but stored first); the all-balances
query applies no `ORDER BY`. -/
def c7Store : Store :=
  { accounts :=
      [ { id := "a2", userId := 1, name := "Later", type := .card,
          openingBalance := 0, openingBalanceDate := none,
          isDeleted := false, createdAt := 2 },
        { id := "a1", userId := 1, name := "Earlier", type := .bank,
          openingBalance := 0, openingBalanceDate := none,
          isDeleted := false, createdAt := 1 } ]
    transactions := []
    expenses := [] }

/-- One stored legacy expense of user 1. -/
def c9Store : Store :=
  { accounts := []
    transactions := []
    expenses :=
      [ { id := "e1", amount := 15, date := 4, categoryId := some "food",
          userId := 1, paymentMethod := .cash, createdAt := 4 } ] }

/-- The targeted expense of the legacy-variant witness. -/
def c9Expense : Expense :=
  { id := "e1", amount := 15, date := 4, categoryId := some "food",
    userId := 1, paymentMethod := .cash, createdAt := 4 }

/-- A soft-deleted transaction of user 1 next to a live one sharing the
account. -/
def w10Store : Store :=
  { accounts := []
    transactions :=
      [ { id := "t1", amount := 9, date := 1, transactionType := .debit,
          accountId := "a1", categoryId := none, userId := 1,
          paymentMethod := .cash, isDeleted := true, createdAt := 1 },
        { id := "t2", amount := 4, date := 2, transactionType := .credit,
          accountId := "a1", categoryId := none, userId := 1,
          paymentMethod := .cash, isDeleted := false, createdAt := 2 } ]
    expenses := [] }

/-- The soft-deleted transaction of the invisibility witness. -/
def w10Target : Transaction :=
  { id := "t1", amount := 9, date := 1, transactionType := .debit,
    accountId := "a1", categoryId := none, userId := 1,
    paymentMethod := .cash, isDeleted := true, createdAt := 1 }

/-! ## Helper lemmas -/

/-- Two chained Boolean filters commute. -/
theorem filter_swap {α : Type} (l : List α) (p q : α → Bool) :
    (l.filter p).filter q = (l.filter q).filter p := by
  rw [List.filter_filter, List.filter_filter]
  exact List.filter_congr fun a _ => Bool.and_comm ..

/-- Unpack a successful account lookup. -/
theorem lookupAccount_some (s : Store) (aid : String) (uid : ℕ) (acc : Account)
    (h : lookupAccount s aid uid = some acc) :
    acc ∈ s.accounts ∧ acc.id = aid ∧ acc.userId = uid ∧ acc.isDeleted = false := by
  unfold lookupAccount at h
  have hm := List.mem_of_find?_eq_some h
  have hp : acc.id = aid ∧ acc.userId = uid ∧ acc.isDeleted = false := by
    simpa using List.find?_some h
  exact ⟨hm, hp.1, hp.2.1, hp.2.2⟩

/-- Unpack a successful transaction lookup. -/
theorem lookupTransaction_some (s : Store) (id : String) (uid : ℕ) (t : Transaction)
    (h : lookupTransaction s id uid = some t) :
    t ∈ s.transactions ∧ t.id = id ∧ t.userId = uid ∧ t.isDeleted = false := by
  unfold lookupTransaction at h
  have hm := List.mem_of_find?_eq_some h
  have hp : t.id = id ∧ t.userId = uid ∧ t.isDeleted = false := by
    simpa using List.find?_some h
  exact ⟨hm, hp.1, hp.2.1, hp.2.2⟩

/-- Unpack a successful legacy expense lookup. -/
theorem lookupExpense_some (s : Store) (id : String) (uid : ℕ) (e : Expense)
    (h : lookupExpense s id uid = some e) :
    e ∈ s.expenses ∧ e.id = id ∧ e.userId = uid := by
  unfold lookupExpense at h
  have hm := List.mem_of_find?_eq_some h
  have hp : e.id = id ∧ e.userId = uid := by
    simpa using List.find?_some h
  exact ⟨hm, hp.1, hp.2⟩

/-- Refining the balance row set by transaction type is the single
conjunctive filter of the spec-side sum. -/
theorem balanceRows_filter_type (s : Store) (aid : String) (dcur : Option ℤ)
    (ty : TransactionType) :
    (balanceRows s aid dcur).filter (fun t => decide (t.transactionType = ty)) =
    s.transactions.filter (fun t =>
      decide (t.accountId = aid ∧ t.isDeleted = false ∧ t.transactionType = ty ∧
        dateGate dcur t.date = true)) := by
  unfold balanceRows
  rw [List.filter_filter]
  refine List.filter_congr fun t _ => ?_
  rw [← Bool.decide_and, decide_eq_decide]
  tauto

/-- Filtering after flipping the soft-delete flag of the rows with a
given id: provided the predicate rejects every flagged row, this equals
filtering the original list and dropping the rows with that id. -/
theorem filter_map_flag (tid : String) (p : Transaction → Bool)
    (hp : ∀ x : Transaction, p { x with isDeleted := true } = false) :
    ∀ l : List Transaction,
      (l.map fun x => if x.id = tid then { x with isDeleted := true } else x).filter p
        = l.filter fun x => p x && decide (¬x.id = tid)
  | [] => rfl
  | x :: xs => by
    simp only [List.map_cons, List.filter_cons]
    by_cases hid : x.id = tid
    · rw [if_pos hid, hp]
      have h2 : (p x && decide (¬x.id = tid)) = false := by simp [hid]
      rw [h2]
      simp only [Bool.false_eq_true, if_false]
      exact filter_map_flag tid p hp xs
    · rw [if_neg hid]
      have h2 : (p x && decide (¬x.id = tid)) = p x := by simp [hid]
      rw [h2]
      cases hpx : p x with
      | true => simp only [if_true]; rw [filter_map_flag tid p hp xs]
      | false => simp only [Bool.false_eq_true, if_false]; exact filter_map_flag tid p hp xs

/-- Dropping from a filtered list the unique element carrying a given id
subtracts exactly that element's contribution from the mapped sum. -/
theorem sum_filter_erase {α : Type} (idf : α → String) (amt : α → ℤ) :
    ∀ (l : List α), (l.map idf).Nodup → ∀ t ∈ l, ∀ p : α → Bool,
      ((l.filter fun x => p x && decide (¬idf x = idf t)).map amt).sum
        = ((l.filter p).map amt).sum - (if p t = true then amt t else 0) := by
  intro l
  induction l with
  | nil => intro _ t ht; exact absurd ht (List.not_mem_nil t)
  | cons x xs ih =>
    intro hnd t ht p
    rw [List.map_cons, List.nodup_cons] at hnd
    obtain ⟨hx, hxs⟩ := hnd
    rcases List.mem_cons.mp ht with rfl | htx
    · have hhead : (p t && decide (¬idf t = idf t)) = false := by simp
      have hcongr : (xs.filter fun y => p y && decide (¬idf y = idf t)) = xs.filter p := by
        refine List.filter_congr fun y hy => ?_
        have hne : ¬idf y = idf t := fun hco => hx (hco ▸ List.mem_map_of_mem idf hy)
        simp [hne]
      rw [List.filter_cons, List.filter_cons, hhead]
      simp only [Bool.false_eq_true, if_false, hcongr]
      cases hpt : p t with
      | true => simp only [if_true, List.map_cons, List.sum_cons]; ring
      | false => simp only [Bool.false_eq_true, if_false]; ring
    · have hne : idf x ≠ idf t := fun hco => hx (hco ▸ List.mem_map_of_mem idf htx)
      have hh : (p x && decide (¬idf x = idf t)) = p x := by simp [hne]
      rw [List.filter_cons, List.filter_cons, hh]
      cases hpx : p x with
      | true =>
        simp only [if_true, List.map_cons, List.sum_cons, ih hxs t htx p]
        ring
      | false =>
        simp only [Bool.false_eq_true, if_false]
        exact ih hxs t htx p

/-- Merging two chained Boolean filters, keeping the inner predicate
first. -/
theorem filter_filter_left {α : Type} (l : List α) (p q : α → Bool) :
    (l.filter p).filter q = l.filter fun a => p a && q a := by
  rw [List.filter_filter]
  exact List.filter_congr fun a _ => Bool.and_comm ..

/-- A successful `getBalance` reports the requested account id. -/
theorem getBalance_ok_accountId (s : Store) (aid : String) (uid : ℕ)
    (v : BalanceResult) (h : getBalance s aid uid = .ok v) : v.accountId = aid := by
  unfold getBalance at h
  cases hl : lookupAccount s aid uid with
  | none => rw [hl] at h; cases h
  | some acc =>
    rw [hl] at h
    obtain ⟨-, hid, -, -⟩ := lookupAccount_some s aid uid acc hl
    injection h with h'
    rw [← h']
    exact hid

/-! ## Claim theorems -/

/-- C1.  Balance identity with opening-date filter: for every account the
lookup resolves for the caller, `getBalance` returns `totalCredit` = the
sum of the amounts of the account's non-deleted credit transactions dated
on/after the opening-balance date (when that date is present and valid),
`totalDebit` the analogous debit sum, and
`balance = openingBalance + totalCredit - totalDebit`; transactions dated
strictly before the opening date are excluded from both sums, and with an
absent or invalid opening date no date restriction applies. -/
theorem getBalance_opening_date_identity (s : Store) (aid : String) (uid : ℕ)
    (acc : Account) (h : lookupAccount s aid uid = some acc) :
    balanceIdentitySpec s aid uid acc := by
  unfold balanceIdentitySpec getBalance
  rw [h]
  unfold specTypedSum
  rw [← balanceRows_filter_type s aid (obDateFilter acc) .credit,
    ← balanceRows_filter_type s aid (obDateFilter acc) .debit]

/-- Witness for C1, on the spec's concrete scenario (opening balance 1000
effective day 1; credit 500, debit 200, one soft-deleted debit, one credit
dated before the opening date); the balance evaluates to 1300. -/
theorem getBalance_opening_date_identity_witness :
    lookupAccount w1Store "a1" 1 = some w1Account ∧
    balanceIdentitySpec w1Store "a1" 1 w1Account ∧
    (getBalance w1Store "a1" 1).toOption.map BalanceResult.balance = some 1300 :=
  ⟨by decide, getBalance_opening_date_identity w1Store "a1" 1 w1Account (by decide),
    by decide⟩

/-- C2, counterexample.  The claim that `getStats` applies the full date
policy uniformly to every sub-query fails: with only `startDate = 10`
given, the standalone credit-total query applies no date restriction and
counts the credit dated day 5, while the uniform policy (`date >= 10`)
excludes it. -/
theorem getStats_uniform_filter_cex :
    (getStats c2Store 1 (some 10) none).totalCredit ≠
      sumAmount (uniformStatsRows c2Store 1 (some 10) none .credit) := by
  decide

/-- C2, amended.  The two grouped sub-queries of `getStats` are filtered
by the full date policy (both bounds → inclusive range; only start →
`date >= start`; only end → `date <= end`; neither → none), but the
`totalCredit` and `totalDebit` sums restrict by date only when both
bounds are given, and apply no date filter when exactly one bound is
given. -/
theorem getStats_filter_amended (s : Store) (uid : ℕ) (sd ed : Option ℤ) :
    ((getStats s uid sd ed).totalCredit =
      sumAmount (s.transactions.filter fun t =>
        decide (t.userId = uid ∧ t.transactionType = .credit ∧ t.isDeleted = false ∧
          statsTotalsDateFilter sd ed t.date = true))) ∧
    ((getStats s uid sd ed).totalDebit =
      sumAmount (s.transactions.filter fun t =>
        decide (t.userId = uid ∧ t.transactionType = .debit ∧ t.isDeleted = false ∧
          statsTotalsDateFilter sd ed t.date = true))) ∧
    ((getStats s uid sd ed).byCategory =
      groupByCategory (s.transactions.filter fun t =>
        decide (t.userId = uid ∧ t.isDeleted = false ∧
          statsDatePolicy sd ed t.date = true))) ∧
    ((getStats s uid sd ed).byPaymentMethod =
      groupByPaymentMethod (s.transactions.filter fun t =>
        decide (t.userId = uid ∧ t.isDeleted = false ∧
          statsDatePolicy sd ed t.date = true))) ∧
    (∀ a d : ℤ, statsTotalsDateFilter (some a) none d = true) ∧
    (∀ b d : ℤ, statsTotalsDateFilter none (some b) d = true) ∧
    (∀ d : ℤ, statsTotalsDateFilter none none d = true) ∧
    (∀ a b d : ℤ, statsTotalsDateFilter (some a) (some b) d =
      statsDatePolicy (some a) (some b) d) :=
  ⟨rfl, rfl, rfl, rfl, fun _ _ => rfl, fun _ _ => rfl, fun _ => rfl,
    fun _ _ _ => rfl⟩

/-- C3.  Partial-failure isolation: however the per-account balance
computation behaves (the `Promise.allSettled` fan-out settles each
promise independently), if the computation rejects for the account at
index `i` of the user's non-deleted account list, the all-balances result
still has exactly one entry per account, the failing account's entry is
the degraded fallback built from its stored opening balance alone
(credit = debit = 0, balance = openingBalance), and every account whose
computation succeeds keeps its computed entry. -/
theorem allBalances_degraded_fallback (s : Store) (uid : ℕ)
    (compute : Account → Except Err BalanceResult) (i : ℕ) (a : Account) (e : Err)
    (ha : (activeAccounts s uid)[i]? = some a)
    (hfail : compute a = .error e) :
    failureIsolationSpec s uid compute i a := by
  unfold failureIsolationSpec getAllAccountBalancesWith
  refine ⟨List.length_map .., ?_, ?_⟩
  · rw [List.getElem?_map, ha]
    simp [hfail]
  · intro j b v hb hok
    rw [List.getElem?_map, hb]
    simp [hok]

/-- Witness for C3: on a two-account store, a compute function that
rejects for the first account and runs the real `getBalance` otherwise. -/
theorem allBalances_degraded_fallback_witness :
    (activeAccounts w3Store 1)[0]? = some w3Bank ∧
    w3Compute w3Bank = .error (.badRequest "connection reset") ∧
    failureIsolationSpec w3Store 1 w3Compute 0 w3Bank :=
  ⟨by decide, by decide,
    allBalances_degraded_fallback w3Store 1 w3Compute 0 w3Bank
      (.badRequest "connection reset") (by decide) (by decide)⟩

/-- C4.  Account deletion guard: for an account the lookup resolves for
its owner, deletion is denied with the default-account reason when the
name case-insensitively equals "cash", the type is `cash`, and the
account is the chronologically first non-deleted account of the user
(checked first); otherwise it is denied with a message carrying the exact
count N when N > 0 non-deleted transactions reference the account; and
when both gates pass the account is soft-deleted in place (flag set by a
length-preserving map, no physical removal). -/
theorem accountsRemove_guards (s : Store) (id : String) (uid : ℕ)
    (acc : Account) (h : lookupAccount s id uid = some acc) :
    accountRemoveGuardSpec s id uid acc := by
  have hcore_pos : 0 < accountTransactionCount s id →
      accountsRemoveCore s acc id =
        .error (.badRequest (removeDeniedMsg (accountTransactionCount s id))) := by
    intro hn
    unfold accountsRemoveCore
    rw [if_pos hn]
  have hcore_zero : accountTransactionCount s id = 0 →
      accountsRemoveCore s acc id = .ok ("Account deleted successfully",
        { s with accounts := s.accounts.map fun a =>
            if a.id = acc.id then { a with isDeleted := true } else a }) := by
    intro hz
    unfold accountsRemoveCore
    rw [if_neg (by omega)]
  have hstep : accountsRemove s id uid =
      (if lowerStr acc.name = "cash" ∧ acc.type = .cash then
        (if isChronoFirst s uid acc = true then
          .error (.forbidden "Cannot delete the default Cash account")
        else accountsRemoveCore s acc id)
      else accountsRemoveCore s acc id) := by
    unfold accountsRemove
    rw [h]
    show (if lowerStr acc.name = "cash" ∧ acc.type = .cash then
        match accountsFindAll s uid with
        | a0 :: _ =>
          if a0.id = acc.id then
            .error (.forbidden "Cannot delete the default Cash account")
          else accountsRemoveCore s acc id
        | [] => accountsRemoveCore s acc id
      else accountsRemoveCore s acc id) = _
    by_cases hg : lowerStr acc.name = "cash" ∧ acc.type = .cash
    · rw [if_pos hg, if_pos hg]
      unfold isChronoFirst
      cases accountsFindAll s uid with
      | nil => simp
      | cons a0 rest =>
        by_cases hid : a0.id = acc.id <;> simp [hid]
    · rw [if_neg hg, if_neg hg]
  unfold accountRemoveGuardSpec
  rw [hstep]
  by_cases hg : lowerStr acc.name = "cash" ∧ acc.type = .cash
  · rw [if_pos hg]
    by_cases hch : isChronoFirst s uid acc = true
    · rw [if_pos hch]
      exact ⟨fun _ => rfl, fun hr _ => absurd ⟨hg.1, hg.2, hch⟩ hr,
        fun hr _ => absurd ⟨hg.1, hg.2, hch⟩ hr⟩
    · rw [if_neg hch]
      exact ⟨fun hr => absurd hr.2.2 hch, fun _ hn => hcore_pos hn,
        fun _ hz => hcore_zero hz⟩
  · rw [if_neg hg]
    exact ⟨fun hr => absurd ⟨hr.1, hr.2.1⟩ hg, fun _ hn => hcore_pos hn,
      fun _ hz => hcore_zero hz⟩

/-- Witness for C4: user 1's protected, chronologically first "Cash"
account. -/
theorem accountsRemove_guards_witness :
    lookupAccount w4Store "c1" 1 = some w4Cash ∧
    accountRemoveGuardSpec w4Store "c1" 1 w4Cash ∧
    accountsRemove w4Store "c1" 1 =
      .error (.forbidden "Cannot delete the default Cash account") :=
  ⟨by decide, accountsRemove_guards w4Store "c1" 1 w4Cash (by decide), by decide⟩

/-- C5.  NotFound on balance lookup: `getBalance` fails with NotFound
exactly when no stored account has the requested id, belongs to the
requesting user, and is not soft-deleted — i.e. the id is unknown, or the
account is another user's, or it is soft-deleted.  `getBalance` is a pure
reader of the store (its type returns no updated store), so no state is
modified in any case, and on the error branch no balance is produced. -/
theorem getBalance_notFound_iff (s : Store) (aid : String) (uid : ℕ) :
    getBalance s aid uid = .error (.notFound "Account not found") ↔
    ∀ a ∈ s.accounts, ¬(a.id = aid ∧ a.userId = uid ∧ a.isDeleted = false) := by
  unfold getBalance
  cases hl : lookupAccount s aid uid with
  | none =>
    unfold lookupAccount at hl
    constructor
    · intro _ a ha hcon
      exact absurd (decide_eq_true hcon) (List.find?_eq_none.mp hl a ha)
    · intro _
      rfl
  | some acc =>
    obtain ⟨hm, hid, huid, hdel⟩ := lookupAccount_some s aid uid acc hl
    constructor
    · intro hcon
      cases hcon
    · intro hall
      exact absurd ⟨hid, huid, hdel⟩ (hall acc hm)

/-- C6.  Soft-delete exclusion as a frame property: removing (soft
deleting) a transaction flips exactly that row's flag — accounts, the
legacy table, and every other transaction are untouched — and every row
set and aggregate feeding `getBalance` and `getStats` afterwards equals
its previous value minus exactly the targeted transaction's contribution
(zero when the transaction did not match the filter). -/
theorem transactionsRemove_frame (s : Store) (tid : String) (t : Transaction)
    (hnd : (s.transactions.map Transaction.id).Nodup)
    (ht : lookupTransaction s tid t.userId = some t) :
    removeFrameSpec s tid t := by
  obtain ⟨hmem, htid, -, hdel⟩ := lookupTransaction_some s tid t.userId t ht
  subst htid
  have hmap : (saveTransaction s { t with isDeleted := true }).transactions =
      s.transactions.map
        (fun x => if x.id = t.id then { x with isDeleted := true } else x) := by
    unfold saveTransaction
    refine List.map_congr_left fun x hx => ?_
    by_cases hxe : x.id = t.id
    · have hxt : x = t := List.inj_on_of_nodup_map hnd hx hmem hxe
      subst hxt
      simp
    · simp [hxe]
  have hfilt : ∀ (p : Transaction → Bool),
      (∀ x : Transaction, p { x with isDeleted := true } = false) →
      (saveTransaction s { t with isDeleted := true }).transactions.filter p =
        (s.transactions.filter p).filter fun x => decide (¬x.id = t.id) := by
    intro p hp
    rw [hmap, filter_map_flag t.id p hp, List.filter_filter]
    exact List.filter_congr fun a _ => (Bool.and_comm ..).symm
  have hbr : ∀ (aid : String) (dcur : Option ℤ),
      balanceRows (saveTransaction s { t with isDeleted := true }) aid dcur =
        (balanceRows s aid dcur).filter fun x => decide (¬x.id = t.id) := by
    intro aid dcur
    unfold balanceRows
    exact hfilt _ (by intro x; simp)
  refine ⟨saveTransaction s { t with isDeleted := true }, ?_, rfl, rfl, hmap,
    hbr, ?_, ?_, ?_⟩
  · unfold transactionsRemove
    rw [ht]
  · intro aid dcur ty
    rw [hbr aid dcur, filter_swap, balanceRows_filter_type]
    unfold sumAmount
    rw [filter_filter_left,
      sum_filter_erase Transaction.id Transaction.amount s.transactions hnd t hmem]
    simp only [decide_eq_true_eq]
  · intro uid2 sd ed ty
    unfold statsTotalRows
    rw [hfilt _ (by intro x; simp)]
    unfold sumAmount
    rw [filter_filter_left,
      sum_filter_erase Transaction.id Transaction.amount s.transactions hnd t hmem]
    simp only [decide_eq_true_eq]
  · intro uid2 sd ed
    unfold statsGroupRows
    exact hfilt _ (by intro x; simp)

/-- Witness for C6: soft deleting the debit `t1` of the two-transaction
store. -/
theorem transactionsRemove_frame_witness :
    (w6Store.transactions.map Transaction.id).Nodup ∧
    lookupTransaction w6Store "t1" w6Target.userId = some w6Target ∧
    removeFrameSpec w6Store "t1" w6Target :=
  ⟨by decide, by decide,
    transactionsRemove_frame w6Store "t1" w6Target (by decide) (by decide)⟩

/-- C7, counterexample.  The all-balances list is not ordered by account
creation time ascending: the underlying account query has no `ORDER BY`
clause, so on a store holding the later-created account first the result
comes back in storage order (creation times [2, 1]). -/
theorem allBalances_not_creation_ordered_cex :
    ¬ allBalancesCreationOrdered c7Store 1 := by
  unfold allBalancesCreationOrdered
  decide

/-- C7, amended.  `getAllAccountBalances` returns exactly one balance per
non-deleted account belonging to the user — positionally, the i-th entry
reports the i-th such account's id — but in the repository's storage
order (the query applies no ordering), not necessarily by creation time. -/
theorem allBalances_one_per_account (s : Store) (uid : ℕ) :
    (getAllAccountBalances s uid).map BalanceResult.accountId =
      (activeAccounts s uid).map Account.id := by
  unfold getAllAccountBalances getAllAccountBalancesWith
  rw [List.map_map]
  refine List.map_congr_left fun a ha => ?_
  show (match getBalance s a.id uid with
    | .ok v => v
    | .error _ => defaultBalanceFor a).accountId = a.id
  cases hb : getBalance s a.id uid with
  | error e => rfl
  | ok v => exact getBalance_ok_accountId s a.id uid v hb

/-- C9, counterexample.  The legacy expense module does not soft delete:
the claim's premise that "deleted" rows stay stored behind a flag that
the stats queries filter on fails, because `ExpensesService.remove`
physically deletes the row (the stored expense table shrinks). -/
theorem expensesRemove_physical_cex : ¬ legacySoftDeleteClaim := by
  intro hclaim
  have h := hclaim c9Store "e1" 1 "Expense deleted successfully"
    { c9Store with expenses := [] } (by decide)
  exact absurd h (by decide)

/-- C9, amended.  The legacy `getStats` filters every sub-query on
`userId` plus the date policy only — the entity has no soft-delete
column — and `remove` physically deletes the row, so subsequent stats
row sets and totals lose exactly the removed expense (it is gone from
the store, not hidden behind a flag). -/
theorem expensesLegacy_amended (s : Store) (id : String) (uid : ℕ) (e : Expense)
    (hnd : (s.expenses.map Expense.id).Nodup)
    (he : lookupExpense s id uid = some e) :
    legacyAmendedSpec s id uid e := by
  obtain ⟨hmem, hid, -⟩ := lookupExpense_some s id uid e he
  subst hid
  have hrows : ∀ (uid2 : ℕ) (sd ed : Option ℤ),
      expenseStatsRows
        { s with expenses := s.expenses.filter fun x => decide (¬x.id = e.id) }
        uid2 sd ed =
      (expenseStatsRows s uid2 sd ed).filter fun x => decide (¬x.id = e.id) := by
    intro uid2 sd ed
    unfold expenseStatsRows
    exact filter_swap ..
  unfold legacyAmendedSpec
  refine ⟨fun uid2 sd ed => ⟨rfl, rfl, rfl⟩,
    { s with expenses := s.expenses.filter fun x => decide (¬x.id = e.id) },
    ?_, rfl, rfl, rfl, hrows, ?_⟩
  · unfold expensesRemove
    rw [he]
  · intro uid2 sd ed
    show sumExpenseAmount _ = sumExpenseAmount _ - _
    rw [hrows uid2 sd ed]
    unfold expenseStatsRows sumExpenseAmount
    rw [filter_filter_left,
      sum_filter_erase Expense.id Expense.amount s.expenses hnd e hmem]
    simp only [decide_eq_true_eq]

/-- Witness for C9's amended theorem: the one-expense store. -/
theorem expensesLegacy_amended_witness :
    (c9Store.expenses.map Expense.id).Nodup ∧
    lookupExpense c9Store "e1" 1 = some c9Expense ∧
    legacyAmendedSpec c9Store "e1" 1 c9Expense :=
  ⟨by decide, by decide,
    expensesLegacy_amended c9Store "e1" 1 c9Expense (by decide) (by decide)⟩

/-- C10.  Soft-deleted transactions are invisible and immutable at the
public interface: for a stored transaction whose soft-delete flag is set,
`findOne`, `update` (any DTO), and `remove` on its id all fail with
NotFound, because all three route through the same lookup that excludes
deleted rows — so a soft-deleted transaction can no longer be read,
modified, re-deleted, or un-deleted through these operations. -/
theorem softDeleted_invisible (s : Store) (t : Transaction)
    (hnd : (s.transactions.map Transaction.id).Nodup)
    (ht : t ∈ s.transactions) (hdel : t.isDeleted = true)
    (dto : UpdateTransactionDto) :
    transactionsFindOne s t.id t.userId =
      .error (.notFound "Transaction not found") ∧
    transactionsUpdate s t.id t.userId dto =
      .error (.notFound "Transaction not found") ∧
    transactionsRemove s t.id t.userId =
      .error (.notFound "Transaction not found") := by
  have hnone : lookupTransaction s t.id t.userId = none := by
    unfold lookupTransaction
    rw [List.find?_eq_none]
    intro x hx hpx
    have hprops : x.id = t.id ∧ x.userId = t.userId ∧ x.isDeleted = false := by
      simpa using hpx
    have hxt : x = t := List.inj_on_of_nodup_map hnd hx ht hprops.1
    have hfalse : t.isDeleted = false := hxt ▸ hprops.2.2
    rw [hdel] at hfalse
    cases hfalse
  unfold transactionsFindOne transactionsUpdate transactionsRemove
  rw [hnone]
  exact ⟨rfl, rfl, rfl⟩

/-- Witness for C10: the soft-deleted transaction `t1` of user 1 (with
the empty update DTO). -/
theorem softDeleted_invisible_witness :
    (w10Store.transactions.map Transaction.id).Nodup ∧
    w10Target ∈ w10Store.transactions ∧
    w10Target.isDeleted = true ∧
    (transactionsFindOne w10Store w10Target.id w10Target.userId =
        .error (.notFound "Transaction not found") ∧
      transactionsUpdate w10Store w10Target.id w10Target.userId {} =
        .error (.notFound "Transaction not found") ∧
      transactionsRemove w10Store w10Target.id w10Target.userId =
        .error (.notFound "Transaction not found")) :=
  ⟨by decide, by decide, by decide,
    softDeleted_invisible w10Store w10Target (by decide) (by decide) (by decide) {}⟩

end ExpenseTracker
